import Mathlib

/-!
Verification development for the GCP SM-ingest load pipeline.

This file gives a shallow embedding of the transactional, dependency-ordered
load pipeline of the repository:

* `src/database/upsert_operations.py` — `UpsertResult`, `ProcessingLedger`,
  `ProductionUpsertManager.process_upserts`, `_upsert_entity_data`, and the
  seven natural-key `_upsert_<entity>` helpers;
* `src/services/ledger_service.py` — `EntitySummary`, `TransferSummary`,
  `LedgerService.generate_processing_ledger`, `_calculate_entity_summaries`;
* `src/services/exception_reporter.py` — `ValidationError`,
  `EntityExceptionReport`, `ExceptionReporter._generate_recommendations`,
  `_extract_critical_errors`, and the `critical_fields` table.

Modelling conventions:

* Python dicts keyed by entity name become functions `String → Option _`
  (`staging_data`) or explicit lookup chains mirroring the source's
  `if`/`elif` chains.
* The MySQL store is modelled per table as a `List ProdRecord`; the SQL
  `SELECT ... WHERE key = %s` / `UPDATE` / `INSERT` pair of each
  `_upsert_<entity>` becomes `upsertRecord` (first matching row is updated,
  otherwise a row is appended).  SQL `NULL` never compares equal, which is
  `sqlEq` on `Option String`.
* The non-key columns of a production row are collapsed into one opaque
  `payload` field: every `_upsert_<entity>` writes all of them together and
  no claim distinguishes them.
* Pydantic validation of a staged row (`model_class(**row_data)`) is an
  external collaborator per the spec; its outcome is carried by the row
  itself (`RowVal.invalid` = the constructor raised, `RowVal.valid` = the
  validated record with its natural-key pair).
* Fallible Python code is embedded in `Except String _`; a raised exception
  is `Except.error` carrying the exception text (punctuation of messages is
  simplified).  Wall-clock timestamps are abstracted to `Unit`.
* Floats (`success_rate`) are modelled as `Rat`; the claims at issue only
  state the defining formula and exact comparisons such as `= 100` / `< 50`.
-/

/-- Outcome of one per-row upsert: the helper `_upsert_<entity>` returns the
string `'inserted'` or `'updated'`. -/
inductive UpsertKind where
  | inserted
  | updated
deriving DecidableEq, Repr

/-- Embeds the dataclass `UpsertResult` of `upsert_operations.py` (lines
25-33): entity name, row counts, transaction-level success flag and optional
error message.  Note there is no `failed_rows` field, exactly as in the
source. -/
structure UpsertResult where
  entity_name : String
  rows_processed : Nat
  rows_inserted : Nat
  rows_updated : Nat
  success : Bool
  error_message : Option String := none
deriving DecidableEq, Repr

/-- Embeds the dataclass `ProcessingLedger` of `upsert_operations.py`
(lines 36-48).  `datetime` values are abstracted: `start_time` is `Unit`
and `end_time` is `some ()` once assigned. -/
structure ProcessingLedger where
  load_id : String
  start_time : Unit := ()
  end_time : Option Unit := none
  results : List UpsertResult := []
  total_rows_processed : Nat := 0
  success : Bool := false
deriving DecidableEq, Repr

/-- Embeds `ProductionUpsertManager.PROCESSING_ORDER` (lines 60-68). -/
def PROCESSING_ORDER : List String :=
  ["customers", "vehicles", "invoices", "line_items", "payments",
   "inventory_parts", "suppliers"]

/-- The literal list `['inventory_parts', 'suppliers']` tested on line 144 of
`process_upserts`: entity types whose failure does not abort the load. -/
def INDEPENDENT_ENTITIES : List String := ["inventory_parts", "suppliers"]

/-- Embeds the key set of `self.model_mapping` (lines 78-86): the entity
names for which a Pydantic model class exists. -/
def MODEL_MAPPING_KEYS : List String :=
  ["customers", "vehicles", "invoices", "line_items", "payments",
   "inventory_parts", "suppliers"]

/-- One row of a production table.  `ext_id` stands for the per-table
external id column (`external_customer_id`, `external_vehicle_id`,
`external_document_id`, `external_dataline_id`, `external_payment_id`,
`external_part_id`, `external_supplier_id`), `shop_id` for
`external_shop_id`, and `payload` collapses all remaining non-key columns,
which every `_upsert_<entity>` writes together. -/
structure ProdRecord where
  ext_id : Option String
  shop_id : Option String
  payload : String
deriving DecidableEq, Repr

/-- SQL equality of the `WHERE col = %s` check: a `NULL` on either side
never matches. -/
def sqlEq : Option String → Option String → Bool
  | some a, some b => a == b
  | _, _ => false

/-- The `WHERE ext_id = %s AND external_shop_id = %s` condition of every
`check_sql` in `upsert_operations.py`. -/
def keyMatch (r : ProdRecord) (eid sid : Option String) : Bool :=
  sqlEq r.ext_id eid && sqlEq r.shop_id sid

/-- The `UPDATE ... WHERE id = %s` of `_upsert_<entity>`: the first row whose
natural key matches (the row whose `id` the `SELECT` returned) has all its
non-key columns rewritten; key columns are not in the `SET` list. -/
def updateFirst (eid sid : Option String) (payload : String) :
    List ProdRecord → List ProdRecord
  | [] => []
  | r :: rs =>
    if keyMatch r eid sid then { r with payload := payload } :: rs
    else r :: updateFirst eid sid payload rs

/-- The check-then-act body shared by the seven `_upsert_<entity>` helpers
(e.g. `_upsert_customer`, lines 245-302): `SELECT` by natural key, then
`UPDATE` the found row and return `'updated'`, or `INSERT` a new row and
return `'inserted'`. -/
def upsertRecord (eid sid : Option String) (payload : String)
    (table : List ProdRecord) : UpsertKind × List ProdRecord :=
  if table.any (fun r => keyMatch r eid sid) then
    (UpsertKind.updated, updateFirst eid sid payload table)
  else
    (UpsertKind.inserted, table ++ [⟨eid, sid, payload⟩])

/-- The production MySQL store: one table per entity type. -/
structure Database where
  customers : List ProdRecord := []
  vehicles : List ProdRecord := []
  invoices : List ProdRecord := []
  line_items : List ProdRecord := []
  payments : List ProdRecord := []
  inventory_parts : List ProdRecord := []
  suppliers : List ProdRecord := []
deriving DecidableEq, Repr

/-- A database with all seven tables empty. -/
def emptyDB : Database := {}

/-- A staged row as consumed by the per-row body of `_upsert_entity_data`.
Field-level validation (`model_class(**row_data)`, a Pydantic model) is out
of scope per the spec, so the row carries its validation outcome:
`invalid msg` means the model constructor raised, `valid eid sid payload`
is the validated record with its natural-key pair and remaining fields. -/
inductive RowVal where
  | invalid (msg : String)
  | valid (eid sid : Option String) (payload : String)
deriving DecidableEq, Repr

/-- The per-row body of `_upsert_entity_data` (lines 193-220): validate the
row, then dispatch on the entity name to the matching `_upsert_<entity>`.
Any exception is `Except.error` (caught by the per-row handler of the
caller).  The final `else` is the `raise ValueError` of line 214. -/
def rowUpsert (name : String) (row : RowVal) (db : Database) :
    Except String (UpsertKind × Database) :=
  match row with
  | RowVal.invalid msg => Except.error msg
  | RowVal.valid eid sid payload =>
    if name = "customers" then
      let r := upsertRecord eid sid payload db.customers
      Except.ok (r.1, { db with customers := r.2 })
    else if name = "vehicles" then
      let r := upsertRecord eid sid payload db.vehicles
      Except.ok (r.1, { db with vehicles := r.2 })
    else if name = "invoices" then
      let r := upsertRecord eid sid payload db.invoices
      Except.ok (r.1, { db with invoices := r.2 })
    else if name = "line_items" then
      let r := upsertRecord eid sid payload db.line_items
      Except.ok (r.1, { db with line_items := r.2 })
    else if name = "payments" then
      let r := upsertRecord eid sid payload db.payments
      Except.ok (r.1, { db with payments := r.2 })
    else if name = "inventory_parts" then
      let r := upsertRecord eid sid payload db.inventory_parts
      Except.ok (r.1, { db with inventory_parts := r.2 })
    else if name = "suppliers" then
      let r := upsertRecord eid sid payload db.suppliers
      Except.ok (r.1, { db with suppliers := r.2 })
    else Except.error ("Unknown entity type: " ++ name)

/-- Counters accumulated by the row loop of `_upsert_entity_data`. -/
structure LoopOut (DB : Type) where
  inserted : Nat
  updated : Nat
  db : DB
deriving Repr

/-- The row loop of `_upsert_entity_data` (lines 193-224), generic over the
per-row action `rowStep` (validation plus `_upsert_<entity>`, any database
effects threaded through `DB`).  A row whose action raises is skipped
(`except Exception ... continue`); `'inserted'`/`'updated'` bump the
respective counter.  The source accumulates the counters left to right; here
the tail is counted first and the head's contribution added on top, which
yields the same totals and threads the database identically. -/
def upsertLoop {Row DB : Type}
    (rowStep : String → Row → DB → Except String (UpsertKind × DB))
    (name : String) : List Row → DB → LoopOut DB
  | [], db => ⟨0, 0, db⟩
  | row :: rest, db =>
    match rowStep name row db with
    | Except.error _ => upsertLoop rowStep name rest db
    | Except.ok kdb =>
      let out := upsertLoop rowStep name rest kdb.2
      match kdb.1 with
      | UpsertKind.inserted => ⟨out.inserted + 1, out.updated, out.db⟩
      | UpsertKind.updated => ⟨out.inserted, out.updated + 1, out.db⟩

/-- Embeds `ProductionUpsertManager._upsert_entity_data` (lines 175-243).
If the entity name is a key of `model_mapping`, every row is processed by
the guarded row loop and the result reports `success=True` with
`rows_processed = len(data)`.  Otherwise `self.model_mapping[entity_name]`
raises `KeyError` before the loop; the outer handler (lines 234-243) returns
`success=False` with the stringified exception. -/
def upsertEntityData {Row DB : Type}
    (rowStep : String → Row → DB → Except String (UpsertKind × DB))
    (name : String) (data : List Row) (db : DB) : UpsertResult × DB :=
  if name ∈ MODEL_MAPPING_KEYS then
    let out := upsertLoop rowStep name data db
    ({ entity_name := name, rows_processed := data.length,
       rows_inserted := out.inserted, rows_updated := out.updated,
       success := true, error_message := none }, out.db)
  else
    ({ entity_name := name, rows_processed := data.length,
       rows_inserted := 0, rows_updated := 0,
       success := false, error_message := some ("KeyError: " ++ name) },
     db)

/-- Result of the entity loop of `process_upserts`: the `UpsertResult`s
appended to the ledger, the final success flag, and the database visible
after the connection closes (`dbFinal = db0` on the rollback path, the
accumulated state on the commit path). -/
structure RunOut (DB : Type) where
  results : List UpsertResult
  success : Bool
  dbFinal : DB
deriving Repr

/-- The `for entity_name in self.PROCESSING_ORDER` loop of `process_upserts`
(lines 125-156), generic over the per-entity step `_upsert_entity_data`.
Entities absent from `staging_data` or with an empty row list are skipped
without recording anything.  Otherwise the step runs, its result is
appended, and on failure: independent entities continue, dependent entities
roll back to `db0` and return at once.  Falling off the end commits and
marks the ledger successful. -/
def runEntities {Row DB : Type}
    (step : String → List Row → DB → UpsertResult × DB)
    (staging : String → Option (List Row)) (db0 : DB) :
    List String → DB → RunOut DB
  | [], db => ⟨[], true, db⟩
  | n :: rest, db =>
    match staging n with
    | none => runEntities step staging db0 rest db
    | some data =>
      if data.isEmpty then runEntities step staging db0 rest db
      else
        let r := step n data db
        if r.1.success then
          let out := runEntities step staging db0 rest r.2
          ⟨r.1 :: out.results, out.success, out.dbFinal⟩
        else if n ∈ INDEPENDENT_ENTITIES then
          let out := runEntities step staging db0 rest r.2
          ⟨r.1 :: out.results, out.success, out.dbFinal⟩
        else ⟨[r.1], false, db0⟩

/-- Embeds `ProductionUpsertManager.process_upserts` (lines 103-173), the
`processLoad` entry point, generic over the per-entity step.  The ledger is
created at start, filled by the entity loop, and closed (`end_time` set) on
both the commit and the rollback exit. -/
def processUpserts {Row DB : Type}
    (step : String → List Row → DB → UpsertResult × DB)
    (load_id : String) (staging : String → Option (List Row)) (db0 : DB) :
    ProcessingLedger × DB :=
  let out := runEntities step staging db0 PROCESSING_ORDER db0
  ({ load_id := load_id, start_time := (), end_time := some (),
     results := out.results,
     total_rows_processed := (out.results.map (fun r => r.rows_processed)).sum,
     success := out.success }, out.dbFinal)

/-- One entry of the manifest's `files` list: `{name, rows, checksum}`
(the checksum plays no role in the embedded code). -/
structure FileEntry where
  name : String
  rows : Nat
deriving DecidableEq, Repr

/-- The manifest record: `manifest_data.get('files', [])` is modelled by the
`files` list itself (an absent key is the empty list). -/
structure Manifest where
  files : List FileEntry
deriving DecidableEq, Repr

/-- Embeds the dataclass `EntitySummary` of `ledger_service.py`
(lines 20-31); `processing_time_seconds` is never assigned and is omitted.
`failed_rows` is a Python `int` difference and may be negative, hence
`Int`. -/
structure EntitySummary where
  entity_name : String
  expected_rows : Nat
  processed_rows : Nat
  inserted_rows : Nat
  updated_rows : Nat
  failed_rows : Int
  success : Bool
  error_message : Option String := none
deriving DecidableEq, Repr

/-- Embeds the dataclass `TransferSummary` of `ledger_service.py`
(lines 34-48); the timestamp and duration fields are abstracted away. -/
structure TransferSummary where
  load_id : String
  total_expected_rows : Nat
  total_processed_rows : Nat
  total_inserted_rows : Nat
  total_updated_rows : Nat
  total_failed_rows : Int
  success_rate : Rat
  overall_success : Bool
  entity_summaries : List EntitySummary
deriving DecidableEq, Repr

/-- The dict comprehension `{file_info['name']: file_info for file_info in
manifest_data.get('files', [])}` of `_calculate_entity_summaries` line 144:
on duplicate names the last entry wins, as in a Python dict. -/
def manifestLookup (files : List FileEntry) (fn : String) : Option FileEntry :=
  files.foldl (fun acc f => if f.name = fn then some f else acc) none

/-- The `rows` count the dict lookup yields for a file name, with the
`.get('rows', 0)` / missing-key default of 0. -/
def manifestRows (files : List FileEntry) (fn : String) : Nat :=
  match manifestLookup files fn with
  | some f => f.rows
  | none => 0

/-- The `if entity_name == '...' and '....csv' in manifest_files` chain of
`_calculate_entity_summaries` (lines 151-165): expected rows for an entity
name, defaulting to 0. -/
def expectedRowsFor (files : List FileEntry) (entity_name : String) : Nat :=
  if entity_name = "customers" then manifestRows files "customers.csv"
  else if entity_name = "vehicles" then manifestRows files "vehicles.csv"
  else if entity_name = "invoices" then manifestRows files "invoices.csv"
  else if entity_name = "line_items" then manifestRows files "line_items.csv"
  else if entity_name = "payments" then manifestRows files "payments.csv"
  else if entity_name = "inventory_parts" then
    manifestRows files "inventory_parts.csv"
  else if entity_name = "suppliers" then manifestRows files "suppliers.csv"
  else 0

/-- The per-result body of `_calculate_entity_summaries` (lines 147-187):
`failed_rows = processed - inserted - updated` (Python int arithmetic) and
`success = result.success and failed_rows == 0`. -/
def summarizeResult (files : List FileEntry) (result : UpsertResult) :
    EntitySummary :=
  let failed : Int :=
    (result.rows_processed : Int) - result.rows_inserted - result.rows_updated
  { entity_name := result.entity_name,
    expected_rows := expectedRowsFor files result.entity_name,
    processed_rows := result.rows_processed,
    inserted_rows := result.rows_inserted,
    updated_rows := result.rows_updated,
    failed_rows := failed,
    success := result.success && failed == 0,
    error_message := result.error_message }

/-- Embeds `LedgerService._calculate_entity_summaries` (lines 134-189).
The `staging_row_counts` argument is accepted and, as in the source, never
read. -/
def calculateEntitySummaries (pl : ProcessingLedger) (manifest : Manifest)
    (_staging_row_counts : List (String × Nat)) : List EntitySummary :=
  pl.results.map (summarizeResult manifest.files)

/-- Models line 96 of `generate_processing_ledger`:
`sum(manifest_data.get('files', []), key=lambda x: x.get('rows', 0))`.
Python's built-in `sum` accepts no `key` keyword argument, so this call
raises `TypeError` before iterating, for every input. -/
def sumWithKeyKeyword (_files : List FileEntry) : Except String Nat :=
  Except.error "TypeError: sum() takes no keyword arguments"

/-- Embeds `LedgerService.generate_processing_ledger` (lines 69-132), the
`reconcile` contract.  The entity summaries are computed first (line 91);
line 96 then raises `TypeError` (see `sumWithKeyKeyword`), which propagates
out of the method, so the remaining lines (97-132) are dead.  They are
nevertheless embedded faithfully after the raising bind: line 97 recomputes
`total_expected` as the sum of the manifest row counts, and the success rate
is `total_processed / total_expected * 100`, or `100.0` when
`total_expected` is 0. -/
def generateProcessingLedger (load_id : String) (pl : ProcessingLedger)
    (manifest : Manifest) (staging_row_counts : List (String × Nat)) :
    Except String TransferSummary := do
  let summaries := calculateEntitySummaries pl manifest staging_row_counts
  let _dead ← sumWithKeyKeyword manifest.files
  let total_expected : Nat := (manifest.files.map (fun f => f.rows)).sum
  let total_processed : Nat := (summaries.map (fun s => s.processed_rows)).sum
  let total_inserted := (summaries.map (fun s => s.inserted_rows)).sum
  let total_updated := (summaries.map (fun s => s.updated_rows)).sum
  let total_failed := (summaries.map (fun s => s.failed_rows)).sum
  let success_rate : Rat :=
    if total_expected > 0 then
      (total_processed : Rat) / (total_expected : Rat) * 100
    else 100
  pure { load_id := load_id,
         total_expected_rows := total_expected,
         total_processed_rows := total_processed,
         total_inserted_rows := total_inserted,
         total_updated_rows := total_updated,
         total_failed_rows := total_failed,
         success_rate := success_rate,
         overall_success := pl.success,
         entity_summaries := summaries }

/-- Embeds the dataclass `ValidationError` of `exception_reporter.py`
(lines 21-29); `field_value: Any` is modelled as an optional string. -/
structure ValidationError where
  row_number : Nat
  field_name : String
  field_value : Option String := none
  error_type : String
  error_message : String
  severity : String := "ERROR"
deriving DecidableEq, Repr

/-- Embeds the dataclass `EntityExceptionReport` of `exception_reporter.py`
(lines 32-43); the timestamp is abstracted away and `success_rate` (a Python
float) is a `Rat`. -/
structure EntityExceptionReport where
  entity_name : String
  load_id : String
  total_records : Nat
  failed_records : Int
  success_rate : Rat
  validation_errors : List ValidationError
  processing_errors : List String
  recommendations : List String := []
deriving DecidableEq, Repr

/-- Embeds `self.critical_fields` of `ExceptionReporter.__init__`
(lines 77-85); the dict `.get(entity, [])` default is the final `else`. -/
def criticalFields (entity_name : String) : List String :=
  if entity_name = "customers" then
    ["external_customer_id", "external_shop_id", "first_name", "last_name"]
  else if entity_name = "vehicles" then
    ["external_vehicle_id", "external_shop_id", "external_customer_id",
     "year", "make", "model"]
  else if entity_name = "invoices" then
    ["external_document_id", "external_shop_id", "external_customer_id",
     "external_vehicle_id"]
  else if entity_name = "line_items" then
    ["external_dataline_id", "external_shop_id", "external_document_id"]
  else if entity_name = "payments" then
    ["external_payment_id", "external_shop_id", "external_document_id"]
  else if entity_name = "inventory_parts" then
    ["external_part_id", "external_shop_id", "part_number"]
  else if entity_name = "suppliers" then
    ["external_supplier_id", "external_shop_id", "supplier_name"]
  else []

/-- The message appended for a critical-field validation error
(lines 223-225; quoting punctuation simplified). -/
def criticalFieldMsg (entity_name : String) (e : ValidationError) : String :=
  entity_name ++ ": Critical field " ++ e.field_name ++ " error - " ++
    e.error_message

/-- The message appended when the entity success rate is below 50%
(lines 229-231; numeric formatting simplified). -/
def highFailureMsg (r : EntityExceptionReport) : String :=
  r.entity_name ++ ": High failure rate (" ++ toString r.success_rate ++ "%)"

/-- The message appended when any processing error exists (lines 234-237). -/
def processingErrorsMsg (r : EntityExceptionReport) : String :=
  r.entity_name ++ ": " ++ toString r.processing_errors.length ++
    " processing errors"

/-- Embeds `ExceptionReporter._extract_critical_errors` (lines 215-239):
one message per validation error on a critical field with severity
`"ERROR"`, then a high-failure-rate message when `success_rate < 50.0`,
then a processing-errors message when any processing error exists. -/
def extractCriticalErrors (r : EntityExceptionReport) : List String :=
  let cf := criticalFields r.entity_name
  let fieldMsgs :=
    (r.validation_errors.filter
      (fun e => cf.contains e.field_name && e.severity == "ERROR")).map
      (criticalFieldMsg r.entity_name)
  let rateMsgs := if r.success_rate < 50 then [highFailureMsg r] else []
  let procMsgs :=
    if r.processing_errors.isEmpty then [] else [processingErrorsMsg r]
  fieldMsgs ++ rateMsgs ++ procMsgs

/-- Models line 207 of `_generate_recommendations`:
`upsert_result.failed_rows`.  The dataclass `UpsertResult`
(`upsert_operations.py` lines 25-33) defines no `failed_rows` attribute, so
the access raises `AttributeError` for every `UpsertResult`. -/
def upsertResultFailedRowsAttr (_r : UpsertResult) : Except String Int :=
  Except.error
    "AttributeError: UpsertResult object has no attribute failed_rows"

/-- Embeds `ExceptionReporter._generate_recommendations` (lines 172-213).
The four validation categories contribute one fixed string each when
present; the processing-errors recommendation interpolates the error count
(line 204).  Line 207 then reads `upsert_result.failed_rows`, which raises
`AttributeError` (see `upsertResultFailedRowsAttr`); the remaining lines are
dead but embedded after the raising bind. -/
def generateRecommendations (entity_name : String)
    (validation_errors : List ValidationError)
    (processing_errors : List String) (upsert_result : UpsertResult) :
    Except String (List String) := do
  let recs0 : List String := []
  let recs1 :=
    if validation_errors.isEmpty then recs0
    else
      let has := fun t => validation_errors.any (fun e => e.error_type == t)
      let a := recs0
      let a := if has "required_field_missing" then
          a ++ ["Review data source for missing required fields in " ++
                entity_name]
        else a
      let a := if has "invalid_format" then
          a ++ ["Validate data format for " ++ entity_name ++
                " before processing"]
        else a
      let a := if has "constraint_violation" then
          a ++ ["Check data constraints and business rules for " ++
                entity_name]
        else a
      let a := if has "type_conversion" then
          a ++ ["Verify data types match expected schema for " ++ entity_name]
        else a
      a
  let recs2 :=
    if processing_errors.isEmpty then recs1
    else
      recs1 ++ ["Review processing logic for " ++ entity_name ++ " - " ++
                toString processing_errors.length ++ " errors occurred"]
  let failed ← upsertResultFailedRowsAttr upsert_result
  let recs3 :=
    if failed > 0 then
      recs2 ++ ["Investigate " ++ toString failed ++ " failed records in " ++
                entity_name]
    else recs2
  let recs4 :=
    if recs3.isEmpty then ["No specific issues identified for " ++ entity_name]
    else recs3
  pure recs4

/-- Specification-side count of the rows of `data` whose per-row action
raises (the rows the `except` handler of `_upsert_entity_data` lines 221-224
skips), threading the database exactly as the row loop does. -/
def errCount {Row DB : Type}
    (rowStep : String → Row → DB → Except String (UpsertKind × DB))
    (name : String) : List Row → DB → Nat
  | [], _ => 0
  | row :: rest, db =>
    match rowStep name row db with
    | Except.error _ => errCount rowStep name rest db + 1
    | Except.ok kdb => errCount rowStep name rest kdb.2

/-- Decides whether a staged row validated with both natural-key fields
present (non-NULL). -/
def fullKey : RowVal → Bool
  | RowVal.valid (some _) (some _) _ => true
  | _ => false

/-- A staging dictionary holding only a customers row list, as in spec
Scenario B. -/
def customersOnly (rows : List RowVal) : String → Option (List RowVal) :=
  fun n => if n = "customers" then some rows else none

/-- Three valid customer rows with distinct natural keys (Scenario B). -/
def rowsScenarioB : List RowVal :=
  [RowVal.valid (some "c1") (some "s1") "p1",
   RowVal.valid (some "c2") (some "s1") "p2",
   RowVal.valid (some "c3") (some "s1") "p3"]

/-- A staging dictionary whose customers entry is present but empty (the
empty-source-file case). -/
def stagingEmptyCustomers : String → Option (List RowVal) :=
  fun n => if n = "customers" then some [] else none

/-- Row list with one valid and one invalid row, exercising the per-row
skip path. -/
def rowsOneBad : List RowVal :=
  [RowVal.valid (some "c1") (some "s1") "p1",
   RowVal.invalid "pydantic: 1 validation error"]

/-- An entity step that reports a transaction-level failure for every
entity type (used to instantiate the universally quantified step of the
orchestrator theorems at a concrete failing run). -/
def stepAlwaysFail (n : String) (data : List RowVal) (db : Database) :
    UpsertResult × Database :=
  ({ entity_name := n, rows_processed := data.length, rows_inserted := 0,
     rows_updated := 0, success := false,
     error_message := some "transaction error" }, db)

/-- An entity step that fails exactly on the suppliers entity type and
succeeds on the rest. -/
def stepFailSuppliers (n : String) (data : List RowVal) (db : Database) :
    UpsertResult × Database :=
  ({ entity_name := n, rows_processed := data.length,
     rows_inserted := data.length, rows_updated := 0,
     success := !(n == "suppliers"),
     error_message := if n == "suppliers" then some "transaction error"
       else none }, db)

/-- A staging dictionary with one staged invoices row. -/
def stagingInvoicesOnly : String → Option (List RowVal) :=
  fun n =>
    if n = "invoices" then some [RowVal.valid (some "i1") (some "s1") "p"]
    else none

/-- A staging dictionary with one staged row for each of the two
independent entity types. -/
def stagingIndependents : String → Option (List RowVal) :=
  fun n =>
    if n = "inventory_parts" then
      some [RowVal.valid (some "p1") (some "s1") "p"]
    else if n = "suppliers" then
      some [RowVal.valid (some "u1") (some "s1") "p"]
    else none

/-- A ledger whose single outcome reports transaction-level success with
one silently skipped row (3 processed, 2 inserted, 0 updated). -/
def ulSkippedRow : UpsertResult :=
  { entity_name := "customers", rows_processed := 3, rows_inserted := 2,
    rows_updated := 0, success := true }

/-- The `ProcessingLedger` wrapping `ulSkippedRow`. -/
def plSkippedRow : ProcessingLedger :=
  { load_id := "L", results := [ulSkippedRow], total_rows_processed := 3,
    success := true }

/-- The entity summary `_calculate_entity_summaries` derives from
`ulSkippedRow` under an empty manifest. -/
def esSkippedRow : EntitySummary :=
  { entity_name := "customers", expected_rows := 0, processed_rows := 3,
    inserted_rows := 2, updated_rows := 0, failed_rows := 1,
    success := false, error_message := none }

/-- A fully successful one-entity ledger (Scenario A shape): 3 customer
rows, all inserted. -/
def plScenarioA : ProcessingLedger :=
  { load_id := "load-1", end_time := some (),
    results := [{ entity_name := "customers", rows_processed := 3,
                  rows_inserted := 3, rows_updated := 0, success := true }],
    total_rows_processed := 3, success := true }

/-- The matching well-formed manifest: `customers.csv` with 3 rows. -/
def manifestScenarioA : Manifest :=
  { files := [{ name := "customers.csv", rows := 3 }] }

/-- A successful upsert outcome handed to `_generate_recommendations`. -/
def urPlain : UpsertResult :=
  { entity_name := "customers", rows_processed := 3, rows_inserted := 3,
    rows_updated := 0, success := true }

/-- An entity report whose only validation error lies on a critical field
but carries severity `"WARNING"` (the severity `validate_csv_headers`
assigns to extra headers), with a healthy success rate and no processing
errors. -/
def reportWarningOnCriticalField : EntityExceptionReport :=
  { entity_name := "customers", load_id := "L", total_records := 10,
    failed_records := 0, success_rate := 100,
    validation_errors := [{ row_number := 0,
                            field_name := "external_customer_id",
                            error_type := "extra_header",
                            error_message := "Unexpected header",
                            severity := "WARNING" }],
    processing_errors := [] }

/-- The failing invoices outcome `stepAlwaysFail` produces on one staged
row. -/
def urInvoicesFail : UpsertResult :=
  { entity_name := "invoices", rows_processed := 1, rows_inserted := 0,
    rows_updated := 0, success := false,
    error_message := some "transaction error" }

/-- The failing suppliers outcome `stepFailSuppliers` produces on one
staged row. -/
def urSuppliersFail : UpsertResult :=
  { entity_name := "suppliers", rows_processed := 1, rows_inserted := 1,
    rows_updated := 0, success := false,
    error_message := some "transaction error" }

/-! ### Theorems -/

/-- C1.  The claim states that `generate_processing_ledger` returns a
`TransferSummary` without raising, with the stated success-rate formula.
The code instead raises `TypeError` on line 96 for every input —
`sum(manifest_data.get('files', []), key=...)` passes a `key` keyword that
Python's `sum` does not accept — before the (correct, line 97) recomputation
of `total_expected` can run.  Evaluated here at a well-formed manifest and a
fully successful ledger with `expectedRows == processedRows` (Scenario A),
the reconcile operation yields the `TypeError`, not a summary. -/
theorem c1_reconcile_always_raises_typeerror :
    generateProcessingLedger "load-1" plScenarioA manifestScenarioA [] =
      Except.error "TypeError: sum() takes no keyword arguments" := by
  rfl

/-- C6.  The claim states that the report operation emits one fixed
remediation string per error category present.  The code instead raises
`AttributeError` on line 207 for every input: `_generate_recommendations`
reads `upsert_result.failed_rows`, an attribute the `UpsertResult`
dataclass does not define, so no recommendation list is ever returned.
Evaluated here at an input with one processing error and a successful
upsert outcome. -/
theorem c6_recommendations_raise_attributeerror :
    generateRecommendations "customers" [] ["connection lost"] urPlain =
      Except.error
        "AttributeError: UpsertResult object has no attribute failed_rows" := by
  rfl

/-- C7 counterexample.  The claim states an error is escalated to the
critical digest whenever it occurs on a field in the entity's
critical-field set.  `reportWarningOnCriticalField` has a validation error
on `external_customer_id` — a critical field for customers — yet
`_extract_critical_errors` escalates nothing, because the code additionally
requires severity `"ERROR"` and this error carries `"WARNING"`. -/
theorem c7_warning_on_critical_field_not_escalated :
    (reportWarningOnCriticalField.validation_errors.any (fun e =>
        (criticalFields reportWarningOnCriticalField.entity_name).contains
          e.field_name)) = true ∧
    extractCriticalErrors reportWarningOnCriticalField = [] := by
  constructor
  · decide
  · decide

/-- C2 counterexample.  The claim states that an entity type with an empty
staged row list yields an Upsert Outcome with `rows_processed = 0` and
`success = true` in the Processing Ledger.  With customers staged as the
empty list, `process_upserts` (here instantiated with the real per-entity
step) skips the entity entirely — the ledger contains no outcome for
customers at all. -/
theorem c2_empty_entity_has_no_outcome :
    stagingEmptyCustomers "customers" = some [] ∧
    ¬ ∃ r, r ∈ (processUpserts (upsertEntityData rowUpsert) "L"
          stagingEmptyCustomers emptyDB).1.results ∧
        r.entity_name = "customers" ∧ r.rows_processed = 0 ∧
        r.success = true := by
  constructor
  · rfl
  · intro h
    obtain ⟨r, hr, -⟩ := h
    have hres : (processUpserts (upsertEntityData rowUpsert) "L"
        stagingEmptyCustomers emptyDB).1.results = [] := by decide
    rw [hres] at hr
    exact absurd hr (List.not_mem_nil r)

/-- C10.  For every entity name, row list, database state and per-row
action (covering arbitrary per-row validation or database exceptions),
`_upsert_entity_data` returns `success = True` exactly when the entity name
is a key of `model_mapping` — every per-row exception is caught and the row
skipped — and its `error_message` is populated exactly on the remaining
(outside-the-loop) failure, the `KeyError` for an unknown entity type. -/
theorem c10_per_row_errors_never_fail_entity {Row DB : Type}
    (rowStep : String → Row → DB → Except String (UpsertKind × DB))
    (name : String) (data : List Row) (db : DB) :
    (upsertEntityData rowStep name data db).1.success =
      decide (name ∈ MODEL_MAPPING_KEYS) ∧
    (upsertEntityData rowStep name data db).1.error_message.isSome =
      !(decide (name ∈ MODEL_MAPPING_KEYS)) := by
  unfold upsertEntityData
  by_cases h : name ∈ MODEL_MAPPING_KEYS <;> simp [h]

/-- The row loop of `_upsert_entity_data` partitions its input: inserted,
updated and skipped (raising) rows together account for every row. -/
theorem upsertLoop_count {Row DB : Type}
    (rowStep : String → Row → DB → Except String (UpsertKind × DB))
    (name : String) :
    ∀ (data : List Row) (db : DB),
      (upsertLoop rowStep name data db).inserted +
        (upsertLoop rowStep name data db).updated +
        errCount rowStep name data db = data.length := by
  intro data
  induction data with
  | nil => intro db; simp [upsertLoop, errCount]
  | cons row rest ih =>
    intro db
    simp only [upsertLoop, errCount, List.length_cons]
    cases h : rowStep name row db with
    | error e =>
      simp only [h]
      have := ih db
      omega
    | ok kdb =>
      simp only [h]
      cases hk : kdb.1 <;> simp only [hk] <;>
        have := ih kdb.2 <;> omega

/-- C4.  For every entity type in the model mapping, every row list,
database state and per-row action, the Upsert Outcome of
`_upsert_entity_data` has `rows_processed` equal to the input length, and
`rows_processed = rows_inserted + rows_updated + rows_failed` where
`rows_failed` — the derived count `processed - inserted - updated` that
`_calculate_entity_summaries` computes — equals the number of rows whose
per-row processing raised and were skipped (and is therefore
nonnegative). -/
theorem c4_row_count_invariant {Row DB : Type}
    (rowStep : String → Row → DB → Except String (UpsertKind × DB))
    (name : String) (data : List Row) (db : DB)
    (h : name ∈ MODEL_MAPPING_KEYS) :
    (upsertEntityData rowStep name data db).1.rows_processed = data.length ∧
    (upsertEntityData rowStep name data db).1.rows_processed =
      (upsertEntityData rowStep name data db).1.rows_inserted +
        (upsertEntityData rowStep name data db).1.rows_updated +
        errCount rowStep name data db := by
  have hc := upsertLoop_count rowStep name data db
  simp only [upsertEntityData, if_pos h]
  exact ⟨trivial, by omega⟩

/-- C4 witness: the invariant evaluated at the customers entity on a
two-row list whose second row fails validation — 2 processed, 1 inserted,
0 updated, 1 skipped. -/
theorem c4_row_count_invariant_witness :
    "customers" ∈ MODEL_MAPPING_KEYS ∧
    ((upsertEntityData rowUpsert "customers" rowsOneBad emptyDB).1.rows_processed
        = rowsOneBad.length ∧
     (upsertEntityData rowUpsert "customers" rowsOneBad emptyDB).1.rows_processed
        = (upsertEntityData rowUpsert "customers" rowsOneBad emptyDB).1.rows_inserted
            + (upsertEntityData rowUpsert "customers" rowsOneBad emptyDB).1.rows_updated
            + errCount rowUpsert "customers" rowsOneBad emptyDB) :=
  ⟨by decide,
   c4_row_count_invariant rowUpsert "customers" rowsOneBad emptyDB (by decide)⟩

/-- C9.  For the entity summaries `_calculate_entity_summaries` derives
from a Processing Ledger, the summary's success flag is true exactly when
the matching Upsert Outcome's transaction-level success flag is true and
the derived `failed_rows = processed - inserted - updated` is zero: a
skipped row marks the entity failed in the Transfer Summary even when the
ledger outcome reports success. -/
theorem c9_entity_summary_success_iff (pl : ProcessingLedger) (m : Manifest)
    (sc : List (String × Nat)) (i : Nat) (r : UpsertResult)
    (s : EntitySummary) (hr : pl.results[i]? = some r)
    (hs : (calculateEntitySummaries pl m sc)[i]? = some s) :
    s.success = true ↔
      (r.success = true ∧
        (r.rows_processed : Int) - r.rows_inserted - r.rows_updated = 0) := by
  have hmap : (calculateEntitySummaries pl m sc)[i]? =
      (pl.results[i]?).map (summarizeResult m.files) := by
    simp [calculateEntitySummaries]
  rw [hmap, hr] at hs
  simp only [Option.map_some'] at hs
  cases hs
  simp [summarizeResult, Bool.and_eq_true, beq_iff_eq]

/-- C9 witness: a ledger outcome with `success = true` but one skipped row
(3 processed, 2 inserted) yields an entity summary marked failed. -/
theorem c9_entity_summary_success_iff_witness :
    plSkippedRow.results[0]? = some ulSkippedRow ∧
    (calculateEntitySummaries plSkippedRow { files := [] } [])[0]? =
      some esSkippedRow ∧
    (esSkippedRow.success = true ↔
      (ulSkippedRow.success = true ∧
        (ulSkippedRow.rows_processed : Int) - ulSkippedRow.rows_inserted -
          ulSkippedRow.rows_updated = 0)) :=
  ⟨by decide, by decide,
   c9_entity_summary_success_iff plSkippedRow { files := [] } [] 0
     ulSkippedRow esSkippedRow (by decide) (by decide)⟩

/-- Both branches of `_upsert_entity_data` stamp the outcome with the
entity name it was called for. -/
theorem upsertEntityData_name {Row DB : Type}
    (rowStep : String → Row → DB → Except String (UpsertKind × DB))
    (name : String) (data : List Row) (db : DB) :
    ((upsertEntityData rowStep name data db).1).entity_name = name := by
  unfold upsertEntityData
  split <;> rfl

/-- Every outcome recorded by the entity loop belongs to an entity of the
processed name list whose staged row list is present and nonempty. -/
theorem runEntities_mem_names {Row DB : Type}
    (step : String → List Row → DB → UpsertResult × DB)
    (staging : String → Option (List Row)) (db0 : DB)
    (hname : ∀ n d db, ((step n d db).1).entity_name = n) :
    ∀ (names : List String) (db : DB) (r : UpsertResult),
      r ∈ (runEntities step staging db0 names db).results →
      ∃ m, m ∈ names ∧ r.entity_name = m ∧
        ∃ d, staging m = some d ∧ d ≠ [] := by
  intro names
  induction names with
  | nil => intro db r hr; simp [runEntities] at hr
  | cons n rest ih =>
    intro db r hr
    cases hs : staging n with
    | none =>
      simp only [runEntities, hs] at hr
      obtain ⟨m, hm, hname2, hd⟩ := ih db r hr
      exact ⟨m, List.mem_cons_of_mem n hm, hname2, hd⟩
    | some data =>
      simp only [runEntities, hs] at hr
      cases hd : data.isEmpty with
      | true =>
        simp only [hd, if_true] at hr
        obtain ⟨m, hm, hname2, hdd⟩ := ih db r hr
        exact ⟨m, List.mem_cons_of_mem n hm, hname2, hdd⟩
      | false =>
        have hdata : data ≠ [] := by
          intro hnil; rw [hnil] at hd; simp at hd
        simp only [hd, Bool.false_eq_true, if_false] at hr
        cases hsucc : (step n data db).1.success with
        | true =>
          simp only [hsucc, if_true] at hr
          rcases List.mem_cons.mp hr with hre | hrm
          · exact ⟨n, List.mem_cons_self n rest,
              by rw [hre]; exact hname n data db, data, hs, hdata⟩
          · obtain ⟨m, hm, hname2, hdd⟩ := ih (step n data db).2 r hrm
            exact ⟨m, List.mem_cons_of_mem n hm, hname2, hdd⟩
        | false =>
          simp only [hsucc, Bool.false_eq_true, if_false] at hr
          by_cases hind : n ∈ INDEPENDENT_ENTITIES
          · simp only [if_pos hind] at hr
            rcases List.mem_cons.mp hr with hre | hrm
            · exact ⟨n, List.mem_cons_self n rest,
                by rw [hre]; exact hname n data db, data, hs, hdata⟩
            · obtain ⟨m, hm, hname2, hdd⟩ := ih (step n data db).2 r hrm
              exact ⟨m, List.mem_cons_of_mem n hm, hname2, hdd⟩
          · simp only [if_neg hind] at hr
            rcases List.mem_cons.mp hr with hre | hrm
            · exact ⟨n, List.mem_cons_self n rest,
                by rw [hre]; exact hname n data db, data, hs, hdata⟩
            · exact absurd hrm (List.not_mem_nil r)

/-- The entity loop never consults the step at an entity whose staged rows
are absent or empty: two steps agreeing elsewhere produce identical runs. -/
theorem runEntities_ignores_unstaged {Row DB : Type}
    (step stepB : String → List Row → DB → UpsertResult × DB)
    (staging : String → Option (List Row)) (db0 : DB) (n : String)
    (hempty : staging n = none ∨ staging n = some [])
    (hagree : ∀ m, m ≠ n → step m = stepB m) :
    ∀ (names : List String) (db : DB),
      runEntities step staging db0 names db =
        runEntities stepB staging db0 names db := by
  intro names
  induction names with
  | nil => intro db; rfl
  | cons m rest ih =>
    intro db
    by_cases hmn : m = n
    · subst hmn
      rcases hempty with h | h <;>
        simp only [runEntities, h, List.isEmpty_nil, if_true, ih]
    · have hstep : step m = stepB m := hagree m hmn
      simp only [runEntities, hstep, ih]

/-- C2 (amended).  For every entity type whose staged row list is absent or
empty, `process_upserts` skips the entity entirely: the per-entity step
(and hence the per-row upsert it wraps) is never invoked for it — the run
is unchanged under any replacement of the step at that entity — and, unlike
the claim's second half, no Upsert Outcome for that entity type appears in
the Processing Ledger at all. -/
theorem c2_empty_entity_skipped {Row DB : Type}
    (step : String → List Row → DB → UpsertResult × DB)
    (hname : ∀ n d db, ((step n d db).1).entity_name = n)
    (load_id : String) (staging : String → Option (List Row)) (db0 : DB)
    (n : String) (hempty : staging n = none ∨ staging n = some []) :
    (∀ r, r ∈ (processUpserts step load_id staging db0).1.results →
       r.entity_name ≠ n) ∧
    (∀ stepB : String → List Row → DB → UpsertResult × DB,
       (∀ m, m ≠ n → step m = stepB m) →
       processUpserts stepB load_id staging db0 =
         processUpserts step load_id staging db0) := by
  constructor
  · intro r hr hrn
    obtain ⟨m, hm, hname2, d, hsd, hd⟩ :=
      runEntities_mem_names step staging db0 hname PROCESSING_ORDER db0 r hr
    rw [hrn] at hname2
    rw [← hname2] at hsd
    rcases hempty with h | h
    · rw [h] at hsd; cases hsd
    · rw [h] at hsd
      cases hsd
      exact hd rfl
  · intro stepB hagree
    unfold processUpserts
    rw [runEntities_ignores_unstaged step stepB staging db0 n hempty hagree
      PROCESSING_ORDER db0]

/-- C2 witness: the amended statement instantiated at the real per-entity
step, a staging dictionary whose customers list is empty, and an empty
database — the ledger records no customers outcome. -/
theorem c2_empty_entity_skipped_witness :
    (stagingEmptyCustomers "customers" = none ∨
      stagingEmptyCustomers "customers" = some []) ∧
    ∀ r, r ∈ (processUpserts (upsertEntityData rowUpsert) "L"
        stagingEmptyCustomers emptyDB).1.results →
      r.entity_name ≠ "customers" :=
  ⟨Or.inr rfl,
   (c2_empty_entity_skipped (upsertEntityData rowUpsert)
     (fun n d db => upsertEntityData_name rowUpsert n d db) "L"
     stagingEmptyCustomers emptyDB "customers" (Or.inr rfl)).1⟩

/-- The entity names of the recorded outcomes form a sublist of the
processed name list: entities are recorded at most once each, in
processing order. -/
theorem runEntities_names_sublist {Row DB : Type}
    (step : String → List Row → DB → UpsertResult × DB)
    (staging : String → Option (List Row)) (db0 : DB)
    (hname : ∀ n d db, ((step n d db).1).entity_name = n) :
    ∀ (names : List String) (db : DB),
      ((runEntities step staging db0 names db).results.map
        (fun r => r.entity_name)).Sublist names := by
  intro names
  induction names with
  | nil => intro db; simp [runEntities]
  | cons n rest ih =>
    intro db
    cases hs : staging n with
    | none =>
      simp only [runEntities, hs]
      exact (ih db).cons n
    | some data =>
      simp only [runEntities, hs]
      cases hd : data.isEmpty with
      | true =>
        simp only [hd, if_true]
        exact (ih db).cons n
      | false =>
        simp only [hd, Bool.false_eq_true, if_false]
        cases hsucc : (step n data db).1.success with
        | true =>
          simp only [hsucc, if_true, List.map_cons, hname n data db]
          exact (ih (step n data db).2).cons₂ n
        | false =>
          simp only [hsucc, Bool.false_eq_true, if_false]
          by_cases hind : n ∈ INDEPENDENT_ENTITIES
          · simp only [if_pos hind, List.map_cons, hname n data db]
            exact (ih (step n data db).2).cons₂ n
          · simp only [if_neg hind, List.map_cons, List.map_nil,
              hname n data db]
            exact (List.nil_sublist rest).cons₂ n

/-- When a recorded outcome is unsuccessful and its entity is not
independent, the entity loop aborted there: the run reports failure, the
final database is the rollback state `db0`, and the failing outcome is the
last one recorded. -/
theorem runEntities_dependent_failure_aborts {Row DB : Type}
    (step : String → List Row → DB → UpsertResult × DB)
    (staging : String → Option (List Row)) (db0 : DB)
    (hname : ∀ n d db, ((step n d db).1).entity_name = n) :
    ∀ (names : List String) (db : DB) (r : UpsertResult),
      r ∈ (runEntities step staging db0 names db).results →
      r.success = false → r.entity_name ∉ INDEPENDENT_ENTITIES →
      (runEntities step staging db0 names db).success = false ∧
      (runEntities step staging db0 names db).dbFinal = db0 ∧
      ∃ pre, (runEntities step staging db0 names db).results = pre ++ [r] := by
  intro names
  induction names with
  | nil => intro db r hr; simp [runEntities] at hr
  | cons n rest ih =>
    intro db r hr hfail hdep
    cases hs : staging n with
    | none =>
      simp only [runEntities, hs] at hr ⊢
      exact ih db r hr hfail hdep
    | some data =>
      simp only [runEntities, hs] at hr ⊢
      cases hd : data.isEmpty with
      | true =>
        simp only [hd, if_true] at hr ⊢
        exact ih db r hr hfail hdep
      | false =>
        simp only [hd, Bool.false_eq_true, if_false] at hr ⊢
        cases hsucc : (step n data db).1.success with
        | true =>
          simp only [hsucc, if_true] at hr ⊢
          rcases List.mem_cons.mp hr with hre | hrm
          · rw [← hre] at hsucc; rw [hsucc] at hfail; cases hfail
          · obtain ⟨h1, h2, pre, h3⟩ := ih (step n data db).2 r hrm hfail hdep
            exact ⟨h1, h2, (step n data db).1 :: pre, by rw [h3]; rfl⟩
        | false =>
          simp only [hsucc, Bool.false_eq_true, if_false] at hr ⊢
          by_cases hind : n ∈ INDEPENDENT_ENTITIES
          · simp only [if_pos hind] at hr ⊢
            rcases List.mem_cons.mp hr with hre | hrm
            · rw [hre, hname n data db] at hdep
              exact absurd hind hdep
            · obtain ⟨h1, h2, pre, h3⟩ := ih (step n data db).2 r hrm hfail hdep
              exact ⟨h1, h2, (step n data db).1 :: pre, by rw [h3]; rfl⟩
          · simp only [if_neg hind] at hr ⊢
            rcases List.mem_cons.mp hr with hre | hrm
            · subst hre
              exact ⟨trivial, trivial, [], rfl⟩
            · exact absurd hrm (List.not_mem_nil r)

/-- The fixed processing order lists each entity exactly once, so position
in the list is strictly increasing along it. -/
theorem processing_order_pairwise :
    PROCESSING_ORDER.Pairwise
      (fun a b => PROCESSING_ORDER.indexOf a < PROCESSING_ORDER.indexOf b) := by
  decide

/-- C3.  For every per-entity step and staging input, if the Processing
Ledger of `process_upserts` records an unsuccessful Upsert Outcome for a
dependent entity type (customers, vehicles, invoices, line_items or
payments), then the ledger is marked failed with its end time set, the
returned database is the rollback state `db0`, and no outcome for any
entity type later in the processing order appears — in particular, if
invoices fails transactionally, no line_items or payments outcome ever
appears in that load's ledger. -/
theorem c3_dependent_failure_rolls_back {Row DB : Type}
    (step : String → List Row → DB → UpsertResult × DB)
    (hname : ∀ n d db, ((step n d db).1).entity_name = n)
    (load_id : String) (staging : String → Option (List Row)) (db0 : DB)
    (r : UpsertResult)
    (hr : r ∈ (processUpserts step load_id staging db0).1.results)
    (hfail : r.success = false)
    (hdep : r.entity_name ∈
      ["customers", "vehicles", "invoices", "line_items", "payments"]) :
    (processUpserts step load_id staging db0).1.success = false ∧
    (processUpserts step load_id staging db0).1.end_time = some () ∧
    (processUpserts step load_id staging db0).2 = db0 ∧
    (∀ m, m ∈ PROCESSING_ORDER →
       PROCESSING_ORDER.indexOf r.entity_name < PROCESSING_ORDER.indexOf m →
       ∀ rr, rr ∈ (processUpserts step load_id staging db0).1.results →
         rr.entity_name ≠ m) ∧
    (r.entity_name = "invoices" →
       ∀ rr, rr ∈ (processUpserts step load_id staging db0).1.results →
         rr.entity_name ≠ "line_items" ∧ rr.entity_name ≠ "payments") := by
  have hdep2 : r.entity_name ∉ INDEPENDENT_ENTITIES := by
    simp only [List.mem_cons, List.not_mem_nil, or_false] at hdep
    rcases hdep with h | h | h | h | h <;> rw [h] <;> decide
  have hr0 : r ∈ (runEntities step staging db0 PROCESSING_ORDER db0).results :=
    hr
  obtain ⟨h1, h2, pre, h3⟩ :=
    runEntities_dependent_failure_aborts step staging db0 hname
      PROCESSING_ORDER db0 r hr0 hfail hdep2
  have horder : ∀ m, m ∈ PROCESSING_ORDER →
      PROCESSING_ORDER.indexOf r.entity_name < PROCESSING_ORDER.indexOf m →
      ∀ rr, rr ∈ (processUpserts step load_id staging db0).1.results →
        rr.entity_name ≠ m := by
    intro m _hmP hlt rr hrr hrrm
    have hsub :=
      runEntities_names_sublist step staging db0 hname PROCESSING_ORDER db0
    have hpw := List.Pairwise.sublist hsub processing_order_pairwise
    have hrr0 :
        rr ∈ (runEntities step staging db0 PROCESSING_ORDER db0).results :=
      hrr
    rw [h3] at hpw hrr0
    rw [List.map_append] at hpw
    rcases List.mem_append.mp hrr0 with hpre | hlast
    · have hRab := (List.pairwise_append.mp hpw).2.2 rr.entity_name
        (List.mem_map_of_mem (fun x => x.entity_name) hpre)
        r.entity_name (by simp)
      rw [hrrm] at hRab
      omega
    · have hre : rr = r := List.mem_singleton.mp hlast
      rw [hre] at hrrm
      rw [hrrm] at hlt
      omega
  refine ⟨h1, rfl, h2, horder, ?_⟩
  intro hinv rr hrr
  constructor
  · refine horder "line_items" (by decide) ?_ rr hrr
    rw [hinv]
    decide
  · refine horder "payments" (by decide) ?_ rr hrr
    rw [hinv]
    decide

/-- C3 witness: a step failing on every entity, with one staged invoices
row — the ledger holds exactly the failing invoices outcome, is marked
failed with end time set, the database is rolled back, and no line_items
or payments outcome appears. -/
theorem c3_dependent_failure_rolls_back_witness :
    urInvoicesFail ∈ (processUpserts stepAlwaysFail "L" stagingInvoicesOnly
        emptyDB).1.results ∧
    urInvoicesFail.success = false ∧
    urInvoicesFail.entity_name ∈
      ["customers", "vehicles", "invoices", "line_items", "payments"] ∧
    ((processUpserts stepAlwaysFail "L" stagingInvoicesOnly
        emptyDB).1.success = false ∧
     (processUpserts stepAlwaysFail "L" stagingInvoicesOnly
        emptyDB).1.end_time = some () ∧
     (processUpserts stepAlwaysFail "L" stagingInvoicesOnly emptyDB).2 =
        emptyDB ∧
     (∀ m, m ∈ PROCESSING_ORDER →
        PROCESSING_ORDER.indexOf urInvoicesFail.entity_name <
          PROCESSING_ORDER.indexOf m →
        ∀ rr, rr ∈ (processUpserts stepAlwaysFail "L" stagingInvoicesOnly
            emptyDB).1.results → rr.entity_name ≠ m) ∧
     (urInvoicesFail.entity_name = "invoices" →
        ∀ rr, rr ∈ (processUpserts stepAlwaysFail "L" stagingInvoicesOnly
            emptyDB).1.results →
          rr.entity_name ≠ "line_items" ∧ rr.entity_name ≠ "payments")) :=
  ⟨by decide, by decide, by decide,
   c3_dependent_failure_rolls_back stepAlwaysFail (fun n d db => rfl) "L"
     stagingInvoicesOnly emptyDB urInvoicesFail (by decide) (by decide)
     (by decide)⟩

/-- When every unsuccessful outcome belongs to an independent entity type,
the entity loop never aborts: it completes with success and records an
outcome for every staged-nonempty entity of the processed name list. -/
theorem runEntities_completes_without_dependent_failure {Row DB : Type}
    (step : String → List Row → DB → UpsertResult × DB)
    (staging : String → Option (List Row)) (db0 : DB)
    (hname : ∀ n d db, ((step n d db).1).entity_name = n) :
    ∀ (names : List String) (db : DB),
      (∀ r, r ∈ (runEntities step staging db0 names db).results →
        r.success = false → r.entity_name ∈ INDEPENDENT_ENTITIES) →
      (runEntities step staging db0 names db).success = true ∧
      (∀ m, m ∈ names → ∀ d, staging m = some d → d ≠ [] →
        ∃ rr, rr ∈ (runEntities step staging db0 names db).results ∧
          rr.entity_name = m) := by
  intro names
  induction names with
  | nil =>
    intro db _hall
    refine ⟨rfl, ?_⟩
    intro m hm
    exact absurd hm (List.not_mem_nil m)
  | cons n rest ih =>
    intro db hall
    cases hs : staging n with
    | none =>
      simp only [runEntities, hs] at hall ⊢
      obtain ⟨h1, h2⟩ := ih db hall
      refine ⟨h1, ?_⟩
      intro m hm d hsd hd
      rcases List.mem_cons.mp hm with hmn | hmr
      · rw [hmn] at hsd; rw [hsd] at hs; cases hs
      · exact h2 m hmr d hsd hd
    | some data =>
      simp only [runEntities, hs] at hall ⊢
      cases hdata : data.isEmpty with
      | true =>
        simp only [hdata, if_true] at hall ⊢
        obtain ⟨h1, h2⟩ := ih db hall
        refine ⟨h1, ?_⟩
        intro m hm d hsd hd
        rcases List.mem_cons.mp hm with hmn | hmr
        · rw [hmn] at hsd
          rw [hsd] at hs
          cases hs
          rw [List.isEmpty_iff] at hdata
          exact absurd hdata hd
        · exact h2 m hmr d hsd hd
      | false =>
        simp only [hdata, Bool.false_eq_true, if_false] at hall ⊢
        cases hsucc : (step n data db).1.success with
        | true =>
          simp only [hsucc, if_true] at hall ⊢
          have hall2 : ∀ r,
              r ∈ (runEntities step staging db0 rest (step n data db).2).results →
              r.success = false → r.entity_name ∈ INDEPENDENT_ENTITIES := by
            intro r hrm
            exact hall r (List.mem_cons_of_mem _ hrm)
          obtain ⟨h1, h2⟩ := ih (step n data db).2 hall2
          refine ⟨h1, ?_⟩
          intro m hm d hsd hd
          rcases List.mem_cons.mp hm with hmn | hmr
          · exact ⟨(step n data db).1, List.mem_cons_self _ _,
              by rw [hname n data db, hmn]⟩
          · obtain ⟨rr, hrr, hrrn⟩ := h2 m hmr d hsd hd
            exact ⟨rr, List.mem_cons_of_mem _ hrr, hrrn⟩
        | false =>
          simp only [hsucc, Bool.false_eq_true, if_false] at hall ⊢
          by_cases hind : n ∈ INDEPENDENT_ENTITIES
          · simp only [if_pos hind] at hall ⊢
            have hall2 : ∀ r,
                r ∈ (runEntities step staging db0 rest (step n data db).2).results →
                r.success = false → r.entity_name ∈ INDEPENDENT_ENTITIES := by
              intro r hrm
              exact hall r (List.mem_cons_of_mem _ hrm)
            obtain ⟨h1, h2⟩ := ih (step n data db).2 hall2
            refine ⟨h1, ?_⟩
            intro m hm d hsd hd
            rcases List.mem_cons.mp hm with hmn | hmr
            · exact ⟨(step n data db).1, List.mem_cons_self _ _,
                by rw [hname n data db, hmn]⟩
            · obtain ⟨rr, hrr, hrrn⟩ := h2 m hmr d hsd hd
              exact ⟨rr, List.mem_cons_of_mem _ hrr, hrrn⟩
          · simp only [if_neg hind] at hall
            have hbad := hall (step n data db).1 (List.mem_cons_self _ _) hsucc
            rw [hname n data db] at hbad
            exact absurd hbad hind

/-- C8.  For every per-entity step and staging input, if the ledger of
`process_upserts` records an unsuccessful outcome for an independent entity
type (inventory_parts or suppliers) and no dependent entity failed, the
failure is recorded in the ledger (the hypothesis exhibits it) while the
orchestrator continues instead of aborting: the run completes — the ledger
is even committed as successful — and every entity of the processing order
with nonempty staged rows has an outcome recorded; in particular, when
suppliers fails transactionally, inventory_parts is still attempted. -/
theorem c8_independent_failure_continues {Row DB : Type}
    (step : String → List Row → DB → UpsertResult × DB)
    (hname : ∀ n d db, ((step n d db).1).entity_name = n)
    (load_id : String) (staging : String → Option (List Row)) (db0 : DB)
    (hex : ∃ r, r ∈ (processUpserts step load_id staging db0).1.results ∧
      r.success = false ∧ r.entity_name ∈ INDEPENDENT_ENTITIES)
    (hall : ∀ r, r ∈ (processUpserts step load_id staging db0).1.results →
      r.success = false → r.entity_name ∈ INDEPENDENT_ENTITIES) :
    (processUpserts step load_id staging db0).1.success = true ∧
    (∀ m, m ∈ PROCESSING_ORDER → ∀ d, staging m = some d → d ≠ [] →
      ∃ rr, rr ∈ (processUpserts step load_id staging db0).1.results ∧
        rr.entity_name = m) := by
  obtain ⟨-, -⟩ := hex
  exact runEntities_completes_without_dependent_failure step staging db0
    hname PROCESSING_ORDER db0 hall

/-- C8 witness: a step failing exactly on suppliers, with one staged row
for each independent entity — the suppliers failure is recorded, the run
completes successfully, and inventory_parts has an outcome (it was
attempted, before suppliers even ran). -/
theorem c8_independent_failure_continues_witness :
    (urSuppliersFail ∈ (processUpserts stepFailSuppliers "L"
        stagingIndependents emptyDB).1.results ∧
     urSuppliersFail.success = false ∧
     urSuppliersFail.entity_name ∈ INDEPENDENT_ENTITIES) ∧
    ((processUpserts stepFailSuppliers "L" stagingIndependents
        emptyDB).1.success = true ∧
     (∀ m, m ∈ PROCESSING_ORDER → ∀ d, stagingIndependents m = some d →
        d ≠ [] →
        ∃ rr, rr ∈ (processUpserts stepFailSuppliers "L" stagingIndependents
            emptyDB).1.results ∧ rr.entity_name = m)) :=
  ⟨⟨by decide, by decide, by decide⟩,
   c8_independent_failure_continues stepFailSuppliers (fun n d db => rfl) "L"
     stagingIndependents emptyDB
     ⟨urSuppliersFail, by decide, by decide, by decide⟩
     (by decide)⟩

/-- C7 (amended).  A message enters the critical digest for an entity
report exactly when (a) a validation error lies on a field of the entity's
critical-field set AND carries severity `"ERROR"` (the severity condition
is the amendment), or (b) the entity success rate is below 50%, or (c) any
processing error exists — and only in those cases. -/
theorem c7_critical_escalation_characterization
    (r : EntityExceptionReport) (msg : String) :
    msg ∈ extractCriticalErrors r ↔
      ((∃ e, e ∈ r.validation_errors ∧
          e.field_name ∈ criticalFields r.entity_name ∧
          e.severity = "ERROR" ∧ msg = criticalFieldMsg r.entity_name e) ∨
       (r.success_rate < 50 ∧ msg = highFailureMsg r) ∨
       (r.processing_errors ≠ [] ∧ msg = processingErrorsMsg r)) := by
  simp only [extractCriticalErrors]
  constructor
  · intro h
    rcases List.mem_append.mp h with hab | hc
    · rcases List.mem_append.mp hab with ha | hb
      · left
        obtain ⟨e, hef, heq⟩ := List.mem_map.mp ha
        obtain ⟨he, hp⟩ := List.mem_filter.mp hef
        rw [Bool.and_eq_true] at hp
        exact ⟨e, he, List.elem_iff.mp hp.1, eq_of_beq hp.2, heq.symm⟩
      · right; left
        by_cases hrate : r.success_rate < 50
        · rw [if_pos hrate] at hb
          exact ⟨hrate, List.mem_singleton.mp hb⟩
        · rw [if_neg hrate] at hb
          exact absurd hb (List.not_mem_nil msg)
    · right; right
      by_cases hproc : r.processing_errors.isEmpty = true
      · rw [if_pos hproc] at hc
        exact absurd hc (List.not_mem_nil msg)
      · rw [if_neg hproc] at hc
        refine ⟨?_, List.mem_singleton.mp hc⟩
        intro hnil
        apply hproc
        rw [hnil]
        rfl
  · intro h
    rcases h with ⟨e, he, hcf, hsev, heq⟩ | ⟨hrate, heq⟩ | ⟨hproc, heq⟩
    · apply List.mem_append.mpr
      left
      apply List.mem_append.mpr
      left
      apply List.mem_map.mpr
      refine ⟨e, List.mem_filter.mpr ⟨he, ?_⟩, heq.symm⟩
      rw [Bool.and_eq_true]
      refine ⟨List.elem_iff.mpr hcf, ?_⟩
      rw [hsev]
      exact beq_self_eq_true "ERROR"
    · apply List.mem_append.mpr
      left
      apply List.mem_append.mpr
      right
      rw [if_pos hrate, heq]
      exact List.mem_singleton_self _
    · apply List.mem_append.mpr
      right
      have hne : r.processing_errors.isEmpty = false := by
        cases hpe : r.processing_errors with
        | nil => exact absurd hpe hproc
        | cons a l => rfl
      rw [if_neg ?_, heq]
      · exact List.mem_singleton_self _
      · rw [hne]
        exact Bool.false_ne_true

/-- The `UPDATE` of an upsert rewrites only non-key columns, so which
natural keys are present in the table is unchanged. -/
theorem updateFirst_keyset (e s : Option String) (p : String)
    (a b : Option String) :
    ∀ t : List ProdRecord,
      (updateFirst e s p t).any (fun rec => keyMatch rec a b) =
        t.any (fun rec => keyMatch rec a b) := by
  intro t
  induction t with
  | nil => rfl
  | cons r rs ih =>
    simp only [updateFirst]
    by_cases h : keyMatch r e s = true
    · rw [if_pos h]
      simp [List.any_cons, keyMatch]
    · rw [if_neg h]
      simp [List.any_cons, ih]

/-- The `UPDATE` of an upsert touches an existing row in place: the table
length is unchanged. -/
theorem updateFirst_length (e s : Option String) (p : String) :
    ∀ t : List ProdRecord, (updateFirst e s p t).length = t.length := by
  intro t
  induction t with
  | nil => rfl
  | cons r rs ih =>
    simp only [updateFirst]
    by_cases h : keyMatch r e s = true
    · rw [if_pos h]
      simp
    · rw [if_neg h]
      simp [ih]

/-- When the natural key already exists, the upsert reports `'updated'`,
keeps the table length, and leaves the set of present keys unchanged. -/
theorem upsertRecord_of_match (e s : Option String) (p : String)
    (t : List ProdRecord)
    (h : t.any (fun rec => keyMatch rec e s) = true) :
    (upsertRecord e s p t).1 = UpsertKind.updated ∧
    ((upsertRecord e s p t).2).length = t.length ∧
    ∀ a b, ((upsertRecord e s p t).2).any (fun rec => keyMatch rec a b) =
      t.any (fun rec => keyMatch rec a b) := by
  unfold upsertRecord
  rw [if_pos h]
  exact ⟨rfl, updateFirst_length e s p t, fun a b => updateFirst_keyset e s p a b t⟩

/-- Any key present before an upsert is still present afterwards: the
`UPDATE` branch preserves keys, the `INSERT` branch only adds a row. -/
theorem upsertRecord_preserves_match (e s : Option String) (p : String)
    (a b : Option String) (t : List ProdRecord)
    (h : t.any (fun rec => keyMatch rec a b) = true) :
    ((upsertRecord e s p t).2).any (fun rec => keyMatch rec a b) = true := by
  unfold upsertRecord
  by_cases hex : t.any (fun rec => keyMatch rec e s) = true
  · rw [if_pos hex]
    rw [updateFirst_keyset]
    exact h
  · rw [if_neg hex]
    simp only [List.any_append]
    rw [h]
    rfl

/-- After upserting a record with a fully non-NULL natural key, that key is
present in the table: either it already matched, or the inserted row now
matches it. -/
theorem upsertRecord_self_match (ea sa : String) (p : String)
    (t : List ProdRecord) :
    ((upsertRecord (some ea) (some sa) p t).2).any
      (fun rec => keyMatch rec (some ea) (some sa)) = true := by
  unfold upsertRecord
  by_cases hex : t.any (fun rec => keyMatch rec (some ea) (some sa)) = true
  · rw [if_pos hex, updateFirst_keyset]
    exact hex
  · rw [if_neg hex]
    simp [List.any_append, keyMatch, sqlEq]

/-- Evaluating the per-row dispatch at the customers entity. -/
theorem rowUpsert_customers (e s : Option String) (p : String)
    (db : Database) :
    rowUpsert "customers" (RowVal.valid e s p) db =
      Except.ok ((upsertRecord e s p db.customers).1,
        { db with customers := (upsertRecord e s p db.customers).2 }) := rfl

/-- A natural key present in the customers table stays present across the
whole row loop. -/
theorem upsertLoop_customers_mono :
    ∀ (rows : List RowVal) (db : Database) (a b : Option String),
      db.customers.any (fun rec => keyMatch rec a b) = true →
      ((upsertLoop rowUpsert "customers" rows db).db).customers.any
        (fun rec => keyMatch rec a b) = true := by
  intro rows
  induction rows with
  | nil => intro db a b h; exact h
  | cons row rest ih =>
    intro db a b h
    cases row with
    | invalid msg =>
      simp only [upsertLoop, rowUpsert]
      exact ih db a b h
    | valid e s p =>
      simp only [upsertLoop, rowUpsert_customers]
      cases hk : (upsertRecord e s p db.customers).1 <;>
        simp only [hk] <;>
        exact ih _ a b (upsertRecord_preserves_match e s p a b db.customers h)

/-- After the row loop has processed a valid row with a fully non-NULL
natural key, that key is present in the customers table. -/
theorem upsertLoop_customers_establishes (ea sa p : String) :
    ∀ (rows : List RowVal) (db : Database),
      RowVal.valid (some ea) (some sa) p ∈ rows →
      ((upsertLoop rowUpsert "customers" rows db).db).customers.any
        (fun rec => keyMatch rec (some ea) (some sa)) = true := by
  intro rows
  induction rows with
  | nil => intro db h; exact absurd h (List.not_mem_nil _)
  | cons row rest ih =>
    intro db h
    rcases List.mem_cons.mp h with hhead | htail
    · rw [← hhead]
      simp only [upsertLoop, rowUpsert_customers]
      cases hk : (upsertRecord (some ea) (some sa) p db.customers).1 <;>
        simp only [hk] <;>
        exact upsertLoop_customers_mono rest _ (some ea) (some sa)
          (upsertRecord_self_match ea sa p db.customers)
    · cases row with
      | invalid msg =>
        simp only [upsertLoop, rowUpsert]
        exact ih db htail
      | valid e s p2 =>
        simp only [upsertLoop, rowUpsert_customers]
        cases hk : (upsertRecord e s p2 db.customers).1 <;>
          simp only [hk] <;>
          exact ih _ htail

/-- When every row is valid with a fully non-NULL natural key already
present in the customers table, the row loop inserts nothing, updates every
row, and leaves the table length and key set unchanged. -/
theorem upsertLoop_customers_all_matched :
    ∀ (rows : List RowVal) (db : Database),
      (∀ row ∈ rows, ∃ ea sa p, row = RowVal.valid (some ea) (some sa) p ∧
        db.customers.any (fun rec => keyMatch rec (some ea) (some sa)) = true) →
      (upsertLoop rowUpsert "customers" rows db).inserted = 0 ∧
      (upsertLoop rowUpsert "customers" rows db).updated = rows.length ∧
      ((upsertLoop rowUpsert "customers" rows db).db).customers.length =
        db.customers.length ∧
      (∀ a b, ((upsertLoop rowUpsert "customers" rows db).db).customers.any
          (fun rec => keyMatch rec a b) =
        db.customers.any (fun rec => keyMatch rec a b)) := by
  intro rows
  induction rows with
  | nil => intro db _h; exact ⟨rfl, rfl, rfl, fun a b => rfl⟩
  | cons row rest ih =>
    intro db hall
    obtain ⟨ea, sa, p, hrow, hmatch⟩ := hall row (List.mem_cons_self row rest)
    subst hrow
    simp only [upsertLoop, rowUpsert_customers]
    obtain ⟨hkind, hlen, hkeys⟩ :=
      upsertRecord_of_match (some ea) (some sa) p db.customers hmatch
    simp only [hkind]
    have hall2 : ∀ row2 ∈ rest, ∃ ea2 sa2 p2,
        row2 = RowVal.valid (some ea2) (some sa2) p2 ∧
        ({ db with customers :=
            (upsertRecord (some ea) (some sa) p db.customers).2 } :
          Database).customers.any
          (fun rec => keyMatch rec (some ea2) (some sa2)) = true := by
      intro row2 hm
      obtain ⟨ea2, sa2, p2, h1, h2⟩ := hall row2 (List.mem_cons_of_mem _ hm)
      exact ⟨ea2, sa2, p2, h1, (hkeys (some ea2) (some sa2)).trans h2⟩
    obtain ⟨h1, h2, h3, h4⟩ := ih _ hall2
    refine ⟨h1, ?_, ?_, ?_⟩
    · rw [List.length_cons, ← h2]
    · rw [h3]
      exact hlen
    · intro a b
      rw [h4 a b]
      exact hkeys a b

/-- Running `process_upserts` on a staging dictionary holding only a
nonempty customers list reduces to the customers row loop: one successful
outcome is recorded with the loop's counters, and the committed database is
the loop's final state. -/
theorem processUpserts_customersOnly (load_id : String) (rows : List RowVal)
    (db : Database) (hne : rows ≠ []) :
    processUpserts (upsertEntityData rowUpsert) load_id (customersOnly rows)
        db =
      ({ load_id := load_id, start_time := (), end_time := some (),
         results := [{ entity_name := "customers",
                       rows_processed := rows.length,
                       rows_inserted :=
                         (upsertLoop rowUpsert "customers" rows db).inserted,
                       rows_updated :=
                         (upsertLoop rowUpsert "customers" rows db).updated,
                       success := true, error_message := none }],
         total_rows_processed := rows.length,
         success := true },
       (upsertLoop rowUpsert "customers" rows db).db) := by
  have hne' : rows.isEmpty = false := by
    cases rows with
    | nil => exact absurd rfl hne
    | cons a l => rfl
  have hstep : upsertEntityData rowUpsert "customers" rows db =
      ({ entity_name := "customers", rows_processed := rows.length,
         rows_inserted := (upsertLoop rowUpsert "customers" rows db).inserted,
         rows_updated := (upsertLoop rowUpsert "customers" rows db).updated,
         success := true, error_message := none },
       (upsertLoop rowUpsert "customers" rows db).db) := by
    unfold upsertEntityData
    rw [if_pos (by decide)]
  simp [processUpserts, PROCESSING_ORDER, runEntities, customersOnly, hne',
    hstep]

/-- C5.  Re-running `process_upserts` on the same staged customer rows —
every row valid with both natural-key fields non-NULL, keys unchanged, so
each row's key matches a record committed by the first run — yields an
Upsert Outcome with zero inserts and every row counted as updated, and the
customers table does not grow: no duplicate production rows are created. -/
theorem c5_rerun_updates_only (load_id : String) (rows : List RowVal)
    (db0 : Database) (hne : rows ≠ []) (hv : rows.all fullKey = true) :
    ∃ r : UpsertResult,
      (processUpserts (upsertEntityData rowUpsert) load_id
        (customersOnly rows)
        (processUpserts (upsertEntityData rowUpsert) load_id
          (customersOnly rows) db0).2).1.results = [r] ∧
      r.entity_name = "customers" ∧ r.rows_processed = rows.length ∧
      r.rows_inserted = 0 ∧ r.rows_updated = rows.length ∧
      r.success = true ∧
      ((processUpserts (upsertEntityData rowUpsert) load_id
        (customersOnly rows)
        (processUpserts (upsertEntityData rowUpsert) load_id
          (customersOnly rows) db0).2).2).customers.length =
      ((processUpserts (upsertEntityData rowUpsert) load_id
        (customersOnly rows) db0).2).customers.length := by
  have hvalid : ∀ row ∈ rows, ∃ ea sa p,
      row = RowVal.valid (some ea) (some sa) p := by
    intro row hm
    have hfk := List.all_eq_true.mp hv row hm
    cases row with
    | invalid msg => simp [fullKey] at hfk
    | valid e s p =>
      cases e with
      | none => simp [fullKey] at hfk
      | some ea =>
        cases s with
        | none => simp [fullKey] at hfk
        | some sa => exact ⟨ea, sa, p, rfl⟩
  have hfirst := processUpserts_customersOnly load_id rows db0 hne
  have hmatched : ∀ row ∈ rows, ∃ ea sa p,
      row = RowVal.valid (some ea) (some sa) p ∧
      ((processUpserts (upsertEntityData rowUpsert) load_id
        (customersOnly rows) db0).2).customers.any
        (fun rec => keyMatch rec (some ea) (some sa)) = true := by
    intro row hm
    obtain ⟨ea, sa, p, hrow⟩ := hvalid row hm
    refine ⟨ea, sa, p, hrow, ?_⟩
    rw [hfirst]
    exact upsertLoop_customers_establishes ea sa p rows db0 (hrow ▸ hm)
  obtain ⟨h1, h2, h3, h4⟩ := upsertLoop_customers_all_matched rows
    ((processUpserts (upsertEntityData rowUpsert) load_id
      (customersOnly rows) db0).2) hmatched
  have hsecond := processUpserts_customersOnly load_id rows
    ((processUpserts (upsertEntityData rowUpsert) load_id
      (customersOnly rows) db0).2) hne
  refine ⟨{ entity_name := "customers", rows_processed := rows.length,
            rows_inserted := (upsertLoop rowUpsert "customers" rows
              ((processUpserts (upsertEntityData rowUpsert) load_id
                (customersOnly rows) db0).2)).inserted,
            rows_updated := (upsertLoop rowUpsert "customers" rows
              ((processUpserts (upsertEntityData rowUpsert) load_id
                (customersOnly rows) db0).2)).updated,
            success := true, error_message := none },
    ?_, rfl, rfl, h1, h2, rfl, ?_⟩
  · rw [hsecond]
  · rw [hsecond]
    exact h3

/-- C5 witness: Scenario B — the three customer rows re-ingested on the
database committed by their first ingestion give inserted 0, updated 3, and
an unchanged customers table size. -/
theorem c5_rerun_updates_only_witness :
    rowsScenarioB ≠ [] ∧ rowsScenarioB.all fullKey = true ∧
    ∃ r : UpsertResult,
      (processUpserts (upsertEntityData rowUpsert) "L"
        (customersOnly rowsScenarioB)
        (processUpserts (upsertEntityData rowUpsert) "L"
          (customersOnly rowsScenarioB) emptyDB).2).1.results = [r] ∧
      r.entity_name = "customers" ∧
      r.rows_processed = rowsScenarioB.length ∧
      r.rows_inserted = 0 ∧ r.rows_updated = rowsScenarioB.length ∧
      r.success = true ∧
      ((processUpserts (upsertEntityData rowUpsert) "L"
        (customersOnly rowsScenarioB)
        (processUpserts (upsertEntityData rowUpsert) "L"
          (customersOnly rowsScenarioB) emptyDB).2).2).customers.length =
      ((processUpserts (upsertEntityData rowUpsert) "L"
        (customersOnly rowsScenarioB) emptyDB).2).customers.length :=
  ⟨by decide, by decide,
   c5_rerun_updates_only "L" rowsScenarioB emptyDB (by decide) (by decide)⟩
